import Mathlib

/-!
# Verification of the constellation LD_PRELOAD interceptor

Shallow embedding of `src/constellation-typescript/native/intercept.c`.

C strings are modelled as `List Char` (a C string cannot contain a NUL
byte, so no terminator is modelled; a nullable `char *` parameter is
modelled as `Option (List Char)`).  The process environment and the
outcomes of the external calls the library performs (`getcwd`, `fork`,
`waitpid`, the raw libc symbols, `mkdir`) are modelled by explicit
structures passed to the embedded functions.  Heap allocation is
assumed to succeed except where a claim is about allocation itself.
-/

namespace Intercept

/-- The single quote character, written via its code point. -/
def quoteC : Char := '\x27'

/-- Abbreviation turning a string literal into the `List Char` model of a C string. -/
def cstr (s : String) : List Char := s.toList

/-- The errno values the interceptor touches. -/
inductive Errno where
  | EINVAL
  | ENOMEM
  | EFAULT
  | EEXIST
  | EACCES
  | ENOENT
deriving DecidableEq

/-! ## Argv quoter (`build_command_from_argv`, intercept.c lines 85-129) -/

/-- Body of the per-argument escaping loop of `build_command_from_argv`
(intercept.c lines 106-116): every single quote becomes the five
characters `quote dquote quote dquote quote`; every other character is
copied. -/
def quoteArgBody : List Char → List Char
  | [] => []
  | c :: t => (if c = quoteC then [quoteC, '"', quoteC, '"', quoteC] else [c]) ++ quoteArgBody t

/-- One escaped argument of `build_command_from_argv`: opening quote,
escaped body, closing quote (intercept.c lines 105-118). -/
def quoteArg (a : List Char) : List Char :=
  quoteC :: quoteArgBody a ++ [quoteC]

/-- The command string written by `build_command_from_argv`
(intercept.c lines 96-126): escaped arguments joined by a single space,
the space appended exactly when a further argument follows. -/
def build_command_from_argv : List (List Char) → List Char
  | [] => []
  | [a] => quoteArg a
  | a :: b :: t => quoteArg a ++ ' ' :: build_command_from_argv (b :: t)

/-! ## POSIX shell word recognition (model for the quoter claim)

The following definitions are not part of the C source: they are the
comparator required by the round-trip claim, modelling how a POSIX
shell splits a command line into words.  Space and tab separate words;
single quotes protect everything up to the matching quote; double
quotes protect everything except the dollar sign, the backquote and
the backslash (on which the model refuses, returning `none`); an
unquoted shell metacharacter, glob character or expansion character
also makes the model refuse, since the line would then not be a plain
word sequence. -/

/-- Characters that, unquoted, make a command line more than a plain
word sequence (operators, globs, expansions, comments). -/
def shellSpecial (c : Char) : Bool :=
  ['$', '\x60', '\\', '|', '&', ';', '<', '>', '(', ')', '*', '?', '[', '#', '~', '\n'].contains c

/-- Quoting mode of the word scanner: outside quotes, inside single
quotes, inside double quotes. -/
inductive QMode where
  | norm
  | insq
  | indq
deriving DecidableEq

/-- Word scanner: input, mode, accumulated current word, and whether a
word has been started.  Returns the word list, or `none` when the line
is not a plain fully-quoted word sequence. -/
def pwAux : List Char → QMode → List Char → Bool → Option (List (List Char))
  | [], .norm, acc, started => if started then some [acc] else some []
  | [], .insq, _, _ => none
  | [], .indq, _, _ => none
  | c :: t, .norm, acc, started =>
    if c = ' ' ∨ c = '\t' then
      if started then (pwAux t .norm [] false).map (fun ws => acc :: ws)
      else pwAux t .norm [] false
    else if c = quoteC then pwAux t .insq acc true
    else if c = '"' then pwAux t .indq acc true
    else if shellSpecial c then none
    else pwAux t .norm (acc ++ [c]) true
  | c :: t, .insq, acc, started =>
    if c = quoteC then pwAux t .norm acc started
    else pwAux t .insq (acc ++ [c]) started
  | c :: t, .indq, acc, started =>
    if c = '"' then pwAux t .norm acc started
    else if c = '$' ∨ c = '\x60' ∨ c = '\\' then none
    else pwAux t .indq (acc ++ [c]) started

/-- Parse a command line as a POSIX shell word sequence. -/
def posixShellWords (s : List Char) : Option (List (List Char)) :=
  pwAux s .norm [] false

/-! ## Substring search (the C library `strstr`) -/

/-- Whether `n` is an initial segment of `h` (the comparison loop
underlying `strstr`). -/
def leadsWith : List Char → List Char → Bool
  | [], _ => true
  | _ :: _, [] => false
  | c :: cs2, d :: ds => c == d && leadsWith cs2 ds

/-- Model of `strstr hay needle`: whether `needle` occurs as a
contiguous substring of `hay`. -/
def hasSub : List Char → List Char → Bool
  | [], needle => needle.isEmpty
  | c :: t, needle => leadsWith needle (c :: t) || hasSub t needle

/-! ## Interception policy (intercept.c lines 71-192) -/

/-- The shell test of `is_shell` (intercept.c lines 71-75): the
filename contains one of the substrings `/sh`, `/bash`, `/zsh`,
`/dash`.  The null-filename guard of the C function is handled by the
callers in this model, which pass `Option (List Char)`. -/
def is_shell (f : List Char) : Bool :=
  hasSub f (cstr "/sh") || hasSub f (cstr "/bash") ||
    hasSub f (cstr "/zsh") || hasSub f (cstr "/dash")

/-- The per-argument test of the shell branch of `is_ssh_command`
(intercept.c lines 153-154): the element contains `ssh ` or a
tab-or-newline variant, or equals `ssh`. -/
def arg_mentions_ssh (a : List Char) : Bool :=
  hasSub a (cstr "ssh ") || hasSub a (cstr "ssh\t") ||
    hasSub a (cstr "ssh\n") || a == cstr "ssh"

/-- Read-only view of the environment variables the library consults.
`REMOTE_VM_HOST` is modelled as always present, because
`execute_via_ssh` passes `getenv("REMOTE_VM_HOST")` to `strdup`
without a null check. -/
structure Env where
  appId : Option (List Char)
  remoteHost : List Char
  remotePort : Option (List Char)
  password : Option (List Char)
deriving DecidableEq

/-- Model of `is_ssh_command` (intercept.c lines 133-164): requires the
app-id gate, then detects a direct ssh filename (`/ssh` substring or
exact `ssh`), or a shell filename whose non-null, nonempty argv has an
element mentioning ssh. -/
def is_ssh_command (env : Env) (hint : Option (List Char))
    (argv : Option (List (List Char))) : Bool :=
  match env.appId with
  | none => false
  | some _ =>
    match hint with
    | none => false
    | some f =>
      (hasSub f (cstr "/ssh") || f == cstr "ssh")
        || (is_shell f &&
            (match argv with
             | some (a :: t) => (a :: t).any arg_mentions_ssh
             | some [] => false
             | none => false))

/-- Model of `should_intercept_and_get_cwd` (intercept.c lines
168-192).  `cwdRes` is the result of `getcwd` (`none` models failure);
the function returns the captured directory when interception applies
and `none` otherwise. -/
def should_intercept_and_get_cwd (env : Env) (cwdRes : Option (List Char))
    (hint : Option (List Char)) (argv : Option (List (List Char))) : Option (List Char) :=
  match env.appId with
  | none => none
  | some _ => if is_ssh_command env hint argv then none else cwdRes

/-! ## Remote dispatcher (`execute_via_ssh`, intercept.c lines 195-353) -/

/-- Outcome of the fork/wait pair inside `execute_via_ssh`: the child
was waited for and its exit status read, or `waitpid` failed, or
`fork` failed. -/
inductive ExitPath where
  | waitSuccess (status : Nat)
  | waitFailure
  | forkFailure
deriving DecidableEq

/-- External-call outcomes for one hooked call: the `getcwd` result
captured by the policy and the fate of the dispatched SSH child. -/
structure World where
  cwd : Option (List Char)
  exitPath : ExitPath
deriving DecidableEq

/-- Model of the `strrchr(host_copy, 0x3a)` split (intercept.c lines
250-254): the part before the last colon, and the part after it when a
colon exists. -/
def splitLastColon : List Char → List Char × Option (List Char)
  | [] => ([], none)
  | c :: t =>
    match splitLastColon t with
    | (r, some p) => (c :: r, some p)
    | (_, none) => if c = ':' then ([], some t) else (c :: t, none)

/-- The port used by `execute_via_ssh` (intercept.c lines 256-260):
`REMOTE_VM_PORT` when set, otherwise the part of `REMOTE_VM_HOST`
after its last colon. -/
def resolvedPort (env : Env) : Option (List Char) :=
  match env.remotePort with
  | some p => some p
  | none => (splitLastColon env.remoteHost).2

/-- Return value and errno of `execute_via_ssh` (intercept.c lines
263-352), given the fate of the child.  `none` for the errno means it
is left as whatever the failing system call set. -/
def execute_via_ssh_result (env : Env) (w : World) : Int × Option Errno :=
  match resolvedPort env with
  | none => (-1, some Errno.EINVAL)
  | some _ =>
    match w.exitPath with
    | .waitSuccess s => (((s % 256 : Nat) : Int), none)
    | .waitFailure => (-1, none)
    | .forkFailure => (-1, none)

/-- The remote command synthesised by `execute_via_ssh` (intercept.c
lines 214-235): `cd '<dir>' && <command>` when a working directory is
given, the command unchanged otherwise. -/
def full_command (cmd : List Char) (wd : Option (List Char)) : List Char :=
  match wd with
  | some d => cstr "cd " ++ quoteC :: (d ++ quoteC :: (cstr " && " ++ cmd))
  | none => cmd

/-- The binary and argument vector of the SSH child built by
`execute_via_ssh` (intercept.c lines 271-316), or `none` when the
missing-port check fails before the vector is built. -/
def execute_via_ssh_spawn (env : Env) (cmd : List Char) (wd : Option (List Char)) :
    Option (List Char × List (List Char)) :=
  match resolvedPort env with
  | none => none
  | some port =>
    let userHost := (splitLastColon env.remoteHost).1
    let fc := full_command cmd wd
    match env.password with
    | some pw =>
      some (cstr "/usr/bin/sshpass",
        [cstr "sshpass", cstr "-p", pw, cstr "ssh", cstr "-o",
         cstr "StrictHostKeyChecking=no", cstr "-p", port, userHost, fc])
    | none =>
      some (cstr "/usr/bin/ssh",
        [cstr "ssh", cstr "-o", cstr "StrictHostKeyChecking=no",
         cstr "-p", port, userHost, fc])

/-! ### Allocation accounting of the dispatcher

For the resource claim, the heap activity of `execute_via_ssh` is
modelled as a list of events.  Identifier 0 is `full_command`,
identifier 1 is `host_copy`, identifiers `2 + i` are the `strdup`
results stored in `ssh_args[i]`.  Allocation is assumed to succeed
(the out-of-memory early returns are not exit paths of the claim). -/

/-- One heap event of the dispatcher. -/
inductive AEv where
  | alloc (i : Nat)
  | free (i : Nat)
deriving DecidableEq

/-- Number of strings `execute_via_ssh` places in `ssh_args`
(intercept.c lines 279-296): ten with a password, seven without. -/
def sshArgCount (env : Env) : Nat :=
  if env.password.isSome then 10 else 7

/-- Heap events of `execute_via_ssh` in program order, per exit path
(intercept.c lines 211-352): the missing-port path frees the command
and host copies; the wait-success and fork-failure paths additionally
free every `ssh_args` string; the wait-failure path (lines 324-329)
frees only the command and host copies. -/
def execute_via_ssh_events (env : Env) (p : ExitPath) : List AEv :=
  match resolvedPort env with
  | none => [AEv.alloc 0, AEv.alloc 1, AEv.free 0, AEv.free 1]
  | some _ =>
    let argAlloc := (List.range (sshArgCount env)).map (fun i => AEv.alloc (2 + i))
    let argFree := (List.range (sshArgCount env)).map (fun i => AEv.free (2 + i))
    match p with
    | .waitSuccess _ => [AEv.alloc 0, AEv.alloc 1] ++ argAlloc ++ argFree ++ [AEv.free 0, AEv.free 1]
    | .waitFailure => [AEv.alloc 0, AEv.alloc 1] ++ argAlloc ++ [AEv.free 0, AEv.free 1]
    | .forkFailure => [AEv.alloc 0, AEv.alloc 1] ++ argAlloc ++ argFree ++ [AEv.free 0, AEv.free 1]

/-- Identifiers allocated in an event list. -/
def allocIds (evs : List AEv) : List Nat :=
  evs.filterMap (fun e => match e with | .alloc i => some i | .free _ => none)

/-- Identifiers freed in an event list. -/
def freedIds (evs : List AEv) : List Nat :=
  evs.filterMap (fun e => match e with | .free i => some i | .alloc _ => none)

/-- Every allocation in the event list is matched by a free and vice
versa (as multisets). -/
def balanced (evs : List AEv) : Prop :=
  ((allocIds evs : Multiset Nat)) = ((freedIds evs : Multiset Nat))

instance (evs : List AEv) : Decidable (balanced evs) :=
  inferInstanceAs (Decidable (((allocIds evs : Multiset Nat)) = ((freedIds evs : Multiset Nat))))

/-! ## The six exec/system hooks (intercept.c lines 355-667) -/

/-- Raw libc symbol a hook delegates to on its fall-through branch. -/
inductive RawSym where
  | execveSym
  | execvSym
  | execvpSym
  | execlSym
  | execlpSym
  | systemSym
deriving DecidableEq

/-- Observable outcome of one hooked call: delegation to a raw libc
symbol, process termination via `_exit`, or a return to the caller
with a value and possibly a known errno. -/
inductive ExecOutcome where
  | rawCall (s : RawSym)
  | exited (status : Nat)
  | returned (r : Int) (e : Option Errno)
deriving DecidableEq

/-- Hook for `execve` (intercept.c lines 355-386): consult the policy
with the filename and argv; fall through on a negative decision;
otherwise quote the argv, dispatch, `_exit(0)` on dispatcher result 0
and return the result otherwise. -/
def execve (env : Env) (w : World) (filename : Option (List Char))
    (argv : List (List Char)) : ExecOutcome :=
  match should_intercept_and_get_cwd env w.cwd filename (some argv) with
  | none => ExecOutcome.rawCall RawSym.execveSym
  | some _ =>
    if (execute_via_ssh_result env w).1 = 0 then ExecOutcome.exited 0
    else ExecOutcome.returned (execute_via_ssh_result env w).1 (execute_via_ssh_result env w).2

/-- Hook for `execvp` (intercept.c lines 388-419): same skeleton as
the `execve` hook. -/
def execvp (env : Env) (w : World) (file : Option (List Char))
    (argv : List (List Char)) : ExecOutcome :=
  match should_intercept_and_get_cwd env w.cwd file (some argv) with
  | none => ExecOutcome.rawCall RawSym.execvpSym
  | some _ =>
    if (execute_via_ssh_result env w).1 = 0 then ExecOutcome.exited 0
    else ExecOutcome.returned (execute_via_ssh_result env w).1 (execute_via_ssh_result env w).2

/-- Hook for `execv` (intercept.c lines 421-452): same skeleton as the
`execve` hook. -/
def execv (env : Env) (w : World) (path : Option (List Char))
    (argv : List (List Char)) : ExecOutcome :=
  match should_intercept_and_get_cwd env w.cwd path (some argv) with
  | none => ExecOutcome.rawCall RawSym.execvSym
  | some _ =>
    if (execute_via_ssh_result env w).1 = 0 then ExecOutcome.exited 0
    else ExecOutcome.returned (execute_via_ssh_result env w).1 (execute_via_ssh_result env w).2

/-- Hook for `system` (intercept.c lines 454-475): a null command
returns 0 immediately; policy is consulted with the command string as
hint and a null argv; on interception the dispatcher result is
returned directly, with no self-termination. -/
def system (env : Env) (w : World) (command : Option (List Char)) : ExecOutcome :=
  match command with
  | none => ExecOutcome.returned 0 none
  | some c =>
    match should_intercept_and_get_cwd env w.cwd (some c) none with
    | none => ExecOutcome.rawCall RawSym.systemSym
    | some _ =>
      ExecOutcome.returned (execute_via_ssh_result env w).1 (execute_via_ssh_result env w).2

/-- Hook for `execl` (intercept.c lines 478-572): the policy is
consulted with the path and a NULL argv (line 483); on fall-through
the variadic arguments are normalised and the raw `execve` is invoked
(line 523); on interception the normalised vector is quoted and
dispatched as in the `execve` hook. -/
def execl (env : Env) (w : World) (path : Option (List Char))
    (_args : List (List Char)) : ExecOutcome :=
  match should_intercept_and_get_cwd env w.cwd path none with
  | none => ExecOutcome.rawCall RawSym.execveSym
  | some _ =>
    if (execute_via_ssh_result env w).1 = 0 then ExecOutcome.exited 0
    else ExecOutcome.returned (execute_via_ssh_result env w).1 (execute_via_ssh_result env w).2

/-- Hook for `execlp` (intercept.c lines 574-667): the policy is
consulted with the file and a NULL argv (line 579); on fall-through
the variadic arguments are normalised and the raw `execvp` is invoked
(line 618); on interception the normalised vector is quoted and
dispatched as in the `execve` hook. -/
def execlp (env : Env) (w : World) (file : Option (List Char))
    (_args : List (List Char)) : ExecOutcome :=
  match should_intercept_and_get_cwd env w.cwd file none with
  | none => ExecOutcome.rawCall RawSym.execvpSym
  | some _ =>
    if (execute_via_ssh_result env w).1 = 0 then ExecOutcome.exited 0
    else ExecOutcome.returned (execute_via_ssh_result env w).1 (execute_via_ssh_result env w).2

/-! ## Chdir hook (intercept.c lines 670-737) -/

/-- Strip one trailing slash, as the copy loop of `mkdir_recursive`
does (intercept.c lines 675-679). -/
def stripSlash (p : List Char) : List Char :=
  if p.getLast? = some '/' then p.dropLast else p

/-- The proper prefixes at which the walk of `mkdir_recursive` invokes
`mkdir` (intercept.c lines 681-689): every position after the first
character holding a slash yields the prefix before it. -/
def slashPrefixes (tmp : List Char) : List (List Char) :=
  ((List.range tmp.length).drop 1).filterMap
    (fun i => if tmp[i]? = some '/' then some (tmp.take i) else none)

/-- Run `mkdir` over a list of target paths, with mode `0o755`,
treating `EEXIST` as success and aborting on any other failure
(intercept.c lines 681-694).  Returns overall success, the errno state
after the run, and the trace of attempted calls. -/
def runMkdirs (mk : List Char → Nat → Option Errno) :
    Option Errno → List (List Char) → Bool × Option Errno × List (List Char × Nat)
  | e, [] => (true, e, [])
  | e, p :: ps =>
    match mk p 0o755 with
    | none =>
      let r := runMkdirs mk e ps
      (r.1, r.2.1, (p, 0o755) :: r.2.2)
    | some err =>
      if err = Errno.EEXIST then
        let r := runMkdirs mk (some err) ps
        (r.1, r.2.1, (p, 0o755) :: r.2.2)
      else (false, some err, [(p, 0o755)])

/-- Model of `mkdir_recursive` (intercept.c lines 670-696): strip one
trailing slash, `mkdir` each slash-delimited proper prefix, then the
whole path. -/
def mkdir_recursive (mk : List Char → Nat → Option Errno) (e : Option Errno)
    (path : List Char) : Bool × Option Errno × List (List Char × Nat) :=
  runMkdirs mk e (slashPrefixes (stripSlash path) ++ [stripSlash path])

/-- External-call outcomes for one `chdir` hook call: the first raw
`chdir` attempt, the retry after directory creation, and the behaviour
of `mkdir` on each path (`none` is success, otherwise the errno it
sets). -/
structure ChdirWorld where
  chdir1 : Option Errno
  chdir2 : Option Errno
  mkd : List Char → Nat → Option Errno

/-- Hook for `chdir` (intercept.c lines 699-737): reject a null path
with `EFAULT`; try the raw `chdir`; on failure create the directory
tree and, if creation succeeded, retry once and return that result;
if creation failed return the original failure value (the errno is
whatever the run left).  `e0` is the errno value on entry. -/
def chdir (e0 : Option Errno) (w : ChdirWorld) (path : Option (List Char)) :
    Int × Option Errno :=
  match path with
  | none => (-1, some Errno.EFAULT)
  | some p =>
    match w.chdir1 with
    | none => (0, e0)
    | some e1 =>
      let r := mkdir_recursive w.mkd (some e1) p
      if r.1 then
        match w.chdir2 with
        | none => (0, r.2.1)
        | some e3 => (-1, some e3)
      else (-1, r.2.1)

/-! ## Spec-side comparators

These definitions follow the words of the specification, not the C
source; they exist to be compared with the source translations. -/

/-- Spec-side: whether `n` occurs as a contiguous substring of `h`. -/
def occursIn (n h : List Char) : Prop :=
  ∃ p t, h = p ++ n ++ t

/-- Spec-side (from the claim about `is_shell`): the basename of a
path, the part after the last slash. -/
def spec_basename (p : List Char) : List Char :=
  (p.reverse.takeWhile (fun c => !(c == '/'))).reverse

/-- Spec-side (from the claim about `is_shell`): the basename is one
of `sh`, `bash`, `zsh`, `dash`. -/
def spec_is_shell (p : List Char) : Bool :=
  [cstr "sh", cstr "bash", cstr "zsh", cstr "dash"].contains (spec_basename p)

end Intercept

namespace Intercept

/-! ## Round-trip lemmas for the quoter -/

/-- Scanning the escaped body of an argument inside single quotes, up
to and including the closing quote, appends exactly the original
argument to the accumulated word. -/
theorem pwAux_body (a : List Char) : ∀ (acc rest : List Char),
    pwAux (quoteArgBody a ++ quoteC :: rest) QMode.insq acc true
      = pwAux rest QMode.norm (acc ++ a) true := by
  induction a with
  | nil =>
    intro acc rest
    have e : quoteArgBody [] ++ quoteC :: rest = quoteC :: rest := by
      simp [quoteArgBody]
    rw [e, List.append_nil]
    rfl
  | cons c t ih =>
    intro acc rest
    by_cases hc : c = quoteC
    · subst hc
      have e : quoteArgBody (quoteC :: t) ++ quoteC :: rest
          = quoteC :: '"' :: quoteC :: '"' :: quoteC :: (quoteArgBody t ++ quoteC :: rest) := by
        simp [quoteArgBody]
      rw [e]
      have h5 : pwAux (quoteC :: '"' :: quoteC :: '"' :: quoteC :: (quoteArgBody t ++ quoteC :: rest))
            QMode.insq acc true
          = pwAux (quoteArgBody t ++ quoteC :: rest) QMode.insq (acc ++ [quoteC]) true := rfl
      rw [h5, ih]
      simp
    · have e : quoteArgBody (c :: t) ++ quoteC :: rest
          = c :: (quoteArgBody t ++ quoteC :: rest) := by
        simp [quoteArgBody, hc]
      rw [e]
      have hstep : pwAux (c :: (quoteArgBody t ++ quoteC :: rest)) QMode.insq acc true
          = pwAux (quoteArgBody t ++ quoteC :: rest) QMode.insq (acc ++ [c]) true := by
        simp [pwAux, hc]
      rw [hstep, ih]
      simp

/-- Scanning one whole quoted argument from word-start position leaves
the scanner just past the closing quote with the argument as the
current word. -/
theorem pwAux_arg (a rest : List Char) :
    pwAux (quoteArg a ++ rest) QMode.norm [] false = pwAux rest QMode.norm a true := by
  have e : quoteArg a ++ rest = quoteC :: (quoteArgBody a ++ quoteC :: rest) := by
    simp [quoteArg]
  rw [e]
  have h1 : pwAux (quoteC :: (quoteArgBody a ++ quoteC :: rest)) QMode.norm [] false
      = pwAux (quoteArgBody a ++ quoteC :: rest) QMode.insq [] true := rfl
  rw [h1, pwAux_body a [] rest]
  simp

/-- Scanning the full built command for a nonempty argv recovers the argv. -/
theorem pwAux_build (argv : List (List Char)) : ∀ a : List Char,
    pwAux (build_command_from_argv (a :: argv)) QMode.norm [] false = some (a :: argv) := by
  induction argv with
  | nil =>
    intro a
    have e : build_command_from_argv [a] = quoteArg a ++ [] := by
      simp [build_command_from_argv]
    rw [e, pwAux_arg]
    rfl
  | cons b bs ih =>
    intro a
    have e : build_command_from_argv (a :: b :: bs)
        = quoteArg a ++ ' ' :: build_command_from_argv (b :: bs) := by
      simp [build_command_from_argv]
    rw [e, pwAux_arg]
    have hstep : pwAux (' ' :: build_command_from_argv (b :: bs)) QMode.norm a true
        = (pwAux (build_command_from_argv (b :: bs)) QMode.norm [] false).map
            (fun ws => a :: ws) := rfl
    rw [hstep, ih b]
    rfl

/-- C1: for every argv whose elements contain no NUL byte, parsing the
output of `build_command_from_argv` as a POSIX shell word sequence
yields exactly the original argv (in particular an element containing
a single quote is reproduced identically). -/
theorem quoter_roundtrip (argv : List (List Char))
    (hnul : ∀ a ∈ argv, Char.ofNat 0 ∉ a) :
    posixShellWords (build_command_from_argv argv) = some argv := by
  cases argv with
  | nil => rfl
  | cons a t => exact pwAux_build t a

/-- Witness for C1 at the concrete argv `[ls, a. b c]` with a single
quote embedded in the second element. -/
theorem quoter_roundtrip_witness :
    (∀ a ∈ [cstr "ls", cstr "a\x27b c"], Char.ofNat 0 ∉ a)
    ∧ posixShellWords (build_command_from_argv [cstr "ls", cstr "a\x27b c"])
        = some [cstr "ls", cstr "a\x27b c"] :=
  ⟨by decide, quoter_roundtrip [cstr "ls", cstr "a\x27b c"] (by decide)⟩

end Intercept

namespace Intercept

/-! ## Policy fall-through lemmas -/

/-- A call classified as an SSH command is not intercepted. -/
theorem intercept_none_of_ssh (env : Env) (cw : Option (List Char))
    (hint : Option (List Char)) (argvO : Option (List (List Char)))
    (h : is_ssh_command env hint argvO = true) :
    should_intercept_and_get_cwd env cw hint argvO = none := by
  cases hA : env.appId with
  | none => simp [should_intercept_and_get_cwd, hA]
  | some a => simp [should_intercept_and_get_cwd, hA, h]

/-- A hint equal to `ssh` or `/usr/bin/ssh` is classified as an SSH
command whenever the gate is passed, for any argv. -/
theorem ssh_hint_direct (env : Env) (aid f : List Char)
    (argvO : Option (List (List Char)))
    (hA : env.appId = some aid)
    (hd : f = cstr "ssh" ∨ f = cstr "/usr/bin/ssh") :
    is_ssh_command env (some f) argvO = true := by
  rcases hd with h | h <;> subst h
  · have hx : (hasSub (cstr "ssh") (cstr "/ssh") || cstr "ssh" == cstr "ssh") = true := by decide
    simp [is_ssh_command, hA, hx]
  · have hx : (hasSub (cstr "/usr/bin/ssh") (cstr "/ssh")
        || cstr "/usr/bin/ssh" == cstr "ssh") = true := by decide
    simp [is_ssh_command, hA, hx]

/-- A shell hint with an argv element mentioning ssh is classified as
an SSH command whenever the gate is passed. -/
theorem ssh_hint_shell (env : Env) (aid g : List Char) (argv : List (List Char))
    (hA : env.appId = some aid)
    (hg : is_shell g = true)
    (hw : argv.any arg_mentions_ssh = true) :
    is_ssh_command env (some g) (some argv) = true := by
  cases argv with
  | nil => simp at hw
  | cons a t => simp [is_ssh_command, hA, hg, hw]

/-! ## C2 -/

/-- C2 counterexample: with the gate passed, a call to the `execl`
hook whose path is a shell and whose argument vector contains `ssh x`
is nevertheless dispatched (the hook passes a NULL argv to the policy,
so the shell-argv filter never fires for `execl`), contradicting the
claim that such a call is never dispatched to SSH. -/
theorem execl_shell_ssh_dispatches :
    execl ⟨some (cstr "app1"), cstr "u@h:22", none, none⟩
        ⟨some (cstr "/w"), ExitPath.waitSuccess 0⟩
        (some (cstr "/bin/sh")) [cstr "sh", cstr "-c", cstr "ssh x"]
      = ExecOutcome.exited 0
    ∧ is_shell (cstr "/bin/sh") = true
    ∧ ([cstr "sh", cstr "-c", cstr "ssh x"]).any arg_mentions_ssh = true
    ∧ ExecOutcome.exited 0 ≠ ExecOutcome.rawCall RawSym.execveSym := by
  decide

/-- C2 amended: with the gate passed, a hint equal to `ssh` or
`/usr/bin/ssh` falls through to the raw symbol on all six entry
points; the shell-hint-with-ssh-argv filter applies only to the three
vector entry points `execve`, `execv`, `execvp`, because `execl`,
`execlp` and `system` consult the policy with a NULL argv. -/
theorem ssh_filter_amended (env : Env) (w : World) (aid f g : List Char)
    (argv argv2 largs : List (List Char))
    (hA : env.appId = some aid)
    (hd : f = cstr "ssh" ∨ f = cstr "/usr/bin/ssh")
    (hg : is_shell g = true)
    (hw : argv.any arg_mentions_ssh = true) :
    execve env w (some f) argv2 = ExecOutcome.rawCall RawSym.execveSym
    ∧ execv env w (some f) argv2 = ExecOutcome.rawCall RawSym.execvSym
    ∧ execvp env w (some f) argv2 = ExecOutcome.rawCall RawSym.execvpSym
    ∧ execl env w (some f) largs = ExecOutcome.rawCall RawSym.execveSym
    ∧ execlp env w (some f) largs = ExecOutcome.rawCall RawSym.execvpSym
    ∧ system env w (some f) = ExecOutcome.rawCall RawSym.systemSym
    ∧ execve env w (some g) argv = ExecOutcome.rawCall RawSym.execveSym
    ∧ execv env w (some g) argv = ExecOutcome.rawCall RawSym.execvSym
    ∧ execvp env w (some g) argv = ExecOutcome.rawCall RawSym.execvpSym := by
  have hn1 : should_intercept_and_get_cwd env w.cwd (some f) (some argv2) = none :=
    intercept_none_of_ssh env w.cwd (some f) (some argv2)
      (ssh_hint_direct env aid f (some argv2) hA hd)
  have hn2 : should_intercept_and_get_cwd env w.cwd (some f) none = none :=
    intercept_none_of_ssh env w.cwd (some f) none
      (ssh_hint_direct env aid f none hA hd)
  have hn3 : should_intercept_and_get_cwd env w.cwd (some g) (some argv) = none :=
    intercept_none_of_ssh env w.cwd (some g) (some argv)
      (ssh_hint_shell env aid g argv hA hg hw)
  refine ⟨?_, ?_, ?_, ?_, ?_, ?_, ?_, ?_, ?_⟩ <;>
    simp [execve, execv, execvp, execl, execlp, system, hn1, hn2, hn3]

/-- Witness for the amended C2 at concrete inputs. -/
theorem ssh_filter_amended_witness :
    execve ⟨some (cstr "app1"), cstr "u@h:22", none, none⟩
        ⟨some (cstr "/w"), ExitPath.waitSuccess 0⟩ (some (cstr "ssh")) [cstr "x"]
      = ExecOutcome.rawCall RawSym.execveSym
    ∧ execv ⟨some (cstr "app1"), cstr "u@h:22", none, none⟩
        ⟨some (cstr "/w"), ExitPath.waitSuccess 0⟩ (some (cstr "ssh")) [cstr "x"]
      = ExecOutcome.rawCall RawSym.execvSym
    ∧ execvp ⟨some (cstr "app1"), cstr "u@h:22", none, none⟩
        ⟨some (cstr "/w"), ExitPath.waitSuccess 0⟩ (some (cstr "ssh")) [cstr "x"]
      = ExecOutcome.rawCall RawSym.execvpSym
    ∧ execl ⟨some (cstr "app1"), cstr "u@h:22", none, none⟩
        ⟨some (cstr "/w"), ExitPath.waitSuccess 0⟩ (some (cstr "ssh")) [cstr "y"]
      = ExecOutcome.rawCall RawSym.execveSym
    ∧ execlp ⟨some (cstr "app1"), cstr "u@h:22", none, none⟩
        ⟨some (cstr "/w"), ExitPath.waitSuccess 0⟩ (some (cstr "ssh")) [cstr "y"]
      = ExecOutcome.rawCall RawSym.execvpSym
    ∧ system ⟨some (cstr "app1"), cstr "u@h:22", none, none⟩
        ⟨some (cstr "/w"), ExitPath.waitSuccess 0⟩ (some (cstr "ssh"))
      = ExecOutcome.rawCall RawSym.systemSym
    ∧ execve ⟨some (cstr "app1"), cstr "u@h:22", none, none⟩
        ⟨some (cstr "/w"), ExitPath.waitSuccess 0⟩ (some (cstr "/bin/bash")) [cstr "ssh"]
      = ExecOutcome.rawCall RawSym.execveSym
    ∧ execv ⟨some (cstr "app1"), cstr "u@h:22", none, none⟩
        ⟨some (cstr "/w"), ExitPath.waitSuccess 0⟩ (some (cstr "/bin/bash")) [cstr "ssh"]
      = ExecOutcome.rawCall RawSym.execvSym
    ∧ execvp ⟨some (cstr "app1"), cstr "u@h:22", none, none⟩
        ⟨some (cstr "/w"), ExitPath.waitSuccess 0⟩ (some (cstr "/bin/bash")) [cstr "ssh"]
      = ExecOutcome.rawCall RawSym.execvpSym :=
  ssh_filter_amended ⟨some (cstr "app1"), cstr "u@h:22", none, none⟩
    ⟨some (cstr "/w"), ExitPath.waitSuccess 0⟩ (cstr "app1") (cstr "ssh") (cstr "/bin/bash")
    [cstr "ssh"] [cstr "x"] [cstr "y"] rfl (Or.inl rfl) (by decide) (by decide)

/-! ## C3 -/

/-- C3 counterexample: with the gate unset, `system(NULL)` returns 0
directly instead of falling through to the raw `system` symbol, so the
claim that every input falls through to the raw symbol fails. -/
theorem gate_unset_system_null :
    system ⟨none, cstr "u@h:1", none, none⟩
        ⟨some (cstr "/w"), ExitPath.waitSuccess 0⟩ none
      = ExecOutcome.returned 0 none
    ∧ ExecOutcome.returned (0 : Int) none ≠ ExecOutcome.rawCall RawSym.systemSym := by
  decide

/-- C3 amended: with `CONSTELLATIONFS_APP_ID` unset, no hook ever
dispatches to SSH; every call falls through to the raw libc symbol,
except `system` with a NULL command, which returns 0 without invoking
the raw symbol; and the shared policy itself answers do-not-intercept
on every input. -/
theorem gate_unset_no_dispatch (env : Env) (w : World)
    (f p : Option (List Char)) (argv largs : List (List Char)) (c : List Char)
    (cw : Option (List Char)) (hint : Option (List Char)) (argvO : Option (List (List Char)))
    (h : env.appId = none) :
    execve env w f argv = ExecOutcome.rawCall RawSym.execveSym
    ∧ execv env w f argv = ExecOutcome.rawCall RawSym.execvSym
    ∧ execvp env w f argv = ExecOutcome.rawCall RawSym.execvpSym
    ∧ execl env w p largs = ExecOutcome.rawCall RawSym.execveSym
    ∧ execlp env w p largs = ExecOutcome.rawCall RawSym.execvpSym
    ∧ system env w (some c) = ExecOutcome.rawCall RawSym.systemSym
    ∧ system env w none = ExecOutcome.returned 0 none
    ∧ should_intercept_and_get_cwd env cw hint argvO = none := by
  have hn : ∀ (cw2 hint2 : Option (List Char)) (argvO2 : Option (List (List Char))),
      should_intercept_and_get_cwd env cw2 hint2 argvO2 = none := by
    intro cw2 hint2 argvO2
    simp [should_intercept_and_get_cwd, h]
  refine ⟨?_, ?_, ?_, ?_, ?_, ?_, ?_, hn cw hint argvO⟩ <;>
    simp [execve, execv, execvp, execl, execlp, system, hn]

/-- Witness for the amended C3 at concrete inputs. -/
theorem gate_unset_no_dispatch_witness :
    execve ⟨none, cstr "u@h:1", none, none⟩ ⟨some (cstr "/w"), ExitPath.waitSuccess 0⟩
        (some (cstr "ls")) [cstr "ls"] = ExecOutcome.rawCall RawSym.execveSym
    ∧ execv ⟨none, cstr "u@h:1", none, none⟩ ⟨some (cstr "/w"), ExitPath.waitSuccess 0⟩
        (some (cstr "ls")) [cstr "ls"] = ExecOutcome.rawCall RawSym.execvSym
    ∧ execvp ⟨none, cstr "u@h:1", none, none⟩ ⟨some (cstr "/w"), ExitPath.waitSuccess 0⟩
        (some (cstr "ls")) [cstr "ls"] = ExecOutcome.rawCall RawSym.execvpSym
    ∧ execl ⟨none, cstr "u@h:1", none, none⟩ ⟨some (cstr "/w"), ExitPath.waitSuccess 0⟩
        (some (cstr "ls")) [cstr "ls"] = ExecOutcome.rawCall RawSym.execveSym
    ∧ execlp ⟨none, cstr "u@h:1", none, none⟩ ⟨some (cstr "/w"), ExitPath.waitSuccess 0⟩
        (some (cstr "ls")) [cstr "ls"] = ExecOutcome.rawCall RawSym.execvpSym
    ∧ system ⟨none, cstr "u@h:1", none, none⟩ ⟨some (cstr "/w"), ExitPath.waitSuccess 0⟩
        (some (cstr "ls")) = ExecOutcome.rawCall RawSym.systemSym
    ∧ system ⟨none, cstr "u@h:1", none, none⟩ ⟨some (cstr "/w"), ExitPath.waitSuccess 0⟩
        none = ExecOutcome.returned 0 none
    ∧ should_intercept_and_get_cwd ⟨none, cstr "u@h:1", none, none⟩ (some (cstr "/w"))
        (some (cstr "ls")) (some [cstr "ls"]) = none :=
  gate_unset_no_dispatch ⟨none, cstr "u@h:1", none, none⟩
    ⟨some (cstr "/w"), ExitPath.waitSuccess 0⟩ (some (cstr "ls")) (some (cstr "ls"))
    [cstr "ls"] [cstr "ls"] (cstr "ls") (some (cstr "/w")) (some (cstr "ls"))
    (some [cstr "ls"]) rfl

/-! ## C4 -/

/-- C4: on every intercepted call, the five exec hooks `_exit(0)` when
the dispatcher returns 0 and return the dispatcher result otherwise;
the `system` hook returns the dispatcher result directly, including 0,
and never self-terminates. -/
theorem hook_exit_semantics (env : Env) (w : World)
    (f p : Option (List Char)) (argv largs : List (List Char)) (c d1 d2 d3 : List Char)
    (h1 : should_intercept_and_get_cwd env w.cwd f (some argv) = some d1)
    (h2 : should_intercept_and_get_cwd env w.cwd p none = some d2)
    (h3 : should_intercept_and_get_cwd env w.cwd (some c) none = some d3) :
    execve env w f argv
      = (if (execute_via_ssh_result env w).1 = 0 then ExecOutcome.exited 0
         else ExecOutcome.returned (execute_via_ssh_result env w).1 (execute_via_ssh_result env w).2)
    ∧ execv env w f argv
      = (if (execute_via_ssh_result env w).1 = 0 then ExecOutcome.exited 0
         else ExecOutcome.returned (execute_via_ssh_result env w).1 (execute_via_ssh_result env w).2)
    ∧ execvp env w f argv
      = (if (execute_via_ssh_result env w).1 = 0 then ExecOutcome.exited 0
         else ExecOutcome.returned (execute_via_ssh_result env w).1 (execute_via_ssh_result env w).2)
    ∧ execl env w p largs
      = (if (execute_via_ssh_result env w).1 = 0 then ExecOutcome.exited 0
         else ExecOutcome.returned (execute_via_ssh_result env w).1 (execute_via_ssh_result env w).2)
    ∧ execlp env w p largs
      = (if (execute_via_ssh_result env w).1 = 0 then ExecOutcome.exited 0
         else ExecOutcome.returned (execute_via_ssh_result env w).1 (execute_via_ssh_result env w).2)
    ∧ system env w (some c)
      = ExecOutcome.returned (execute_via_ssh_result env w).1 (execute_via_ssh_result env w).2 := by
  refine ⟨?_, ?_, ?_, ?_, ?_, ?_⟩ <;>
    simp [execve, execv, execvp, execl, execlp, system, h1, h2, h3]

/-- Witness for C4 at concrete inputs (dispatcher result 5, so the
exec hooks return and `system` passes the status through). -/
theorem hook_exit_semantics_witness :
    execve ⟨some (cstr "a"), cstr "u@h:1", none, none⟩ ⟨some (cstr "/w"), ExitPath.waitSuccess 5⟩
        (some (cstr "ls")) [cstr "ls"]
      = (if (execute_via_ssh_result ⟨some (cstr "a"), cstr "u@h:1", none, none⟩
              ⟨some (cstr "/w"), ExitPath.waitSuccess 5⟩).1 = 0 then ExecOutcome.exited 0
         else ExecOutcome.returned
           (execute_via_ssh_result ⟨some (cstr "a"), cstr "u@h:1", none, none⟩
             ⟨some (cstr "/w"), ExitPath.waitSuccess 5⟩).1
           (execute_via_ssh_result ⟨some (cstr "a"), cstr "u@h:1", none, none⟩
             ⟨some (cstr "/w"), ExitPath.waitSuccess 5⟩).2)
    ∧ execv ⟨some (cstr "a"), cstr "u@h:1", none, none⟩ ⟨some (cstr "/w"), ExitPath.waitSuccess 5⟩
        (some (cstr "ls")) [cstr "ls"]
      = (if (execute_via_ssh_result ⟨some (cstr "a"), cstr "u@h:1", none, none⟩
              ⟨some (cstr "/w"), ExitPath.waitSuccess 5⟩).1 = 0 then ExecOutcome.exited 0
         else ExecOutcome.returned
           (execute_via_ssh_result ⟨some (cstr "a"), cstr "u@h:1", none, none⟩
             ⟨some (cstr "/w"), ExitPath.waitSuccess 5⟩).1
           (execute_via_ssh_result ⟨some (cstr "a"), cstr "u@h:1", none, none⟩
             ⟨some (cstr "/w"), ExitPath.waitSuccess 5⟩).2)
    ∧ execvp ⟨some (cstr "a"), cstr "u@h:1", none, none⟩ ⟨some (cstr "/w"), ExitPath.waitSuccess 5⟩
        (some (cstr "ls")) [cstr "ls"]
      = (if (execute_via_ssh_result ⟨some (cstr "a"), cstr "u@h:1", none, none⟩
              ⟨some (cstr "/w"), ExitPath.waitSuccess 5⟩).1 = 0 then ExecOutcome.exited 0
         else ExecOutcome.returned
           (execute_via_ssh_result ⟨some (cstr "a"), cstr "u@h:1", none, none⟩
             ⟨some (cstr "/w"), ExitPath.waitSuccess 5⟩).1
           (execute_via_ssh_result ⟨some (cstr "a"), cstr "u@h:1", none, none⟩
             ⟨some (cstr "/w"), ExitPath.waitSuccess 5⟩).2)
    ∧ execl ⟨some (cstr "a"), cstr "u@h:1", none, none⟩ ⟨some (cstr "/w"), ExitPath.waitSuccess 5⟩
        (some (cstr "ls")) [cstr "ls"]
      = (if (execute_via_ssh_result ⟨some (cstr "a"), cstr "u@h:1", none, none⟩
              ⟨some (cstr "/w"), ExitPath.waitSuccess 5⟩).1 = 0 then ExecOutcome.exited 0
         else ExecOutcome.returned
           (execute_via_ssh_result ⟨some (cstr "a"), cstr "u@h:1", none, none⟩
             ⟨some (cstr "/w"), ExitPath.waitSuccess 5⟩).1
           (execute_via_ssh_result ⟨some (cstr "a"), cstr "u@h:1", none, none⟩
             ⟨some (cstr "/w"), ExitPath.waitSuccess 5⟩).2)
    ∧ execlp ⟨some (cstr "a"), cstr "u@h:1", none, none⟩ ⟨some (cstr "/w"), ExitPath.waitSuccess 5⟩
        (some (cstr "ls")) [cstr "ls"]
      = (if (execute_via_ssh_result ⟨some (cstr "a"), cstr "u@h:1", none, none⟩
              ⟨some (cstr "/w"), ExitPath.waitSuccess 5⟩).1 = 0 then ExecOutcome.exited 0
         else ExecOutcome.returned
           (execute_via_ssh_result ⟨some (cstr "a"), cstr "u@h:1", none, none⟩
             ⟨some (cstr "/w"), ExitPath.waitSuccess 5⟩).1
           (execute_via_ssh_result ⟨some (cstr "a"), cstr "u@h:1", none, none⟩
             ⟨some (cstr "/w"), ExitPath.waitSuccess 5⟩).2)
    ∧ system ⟨some (cstr "a"), cstr "u@h:1", none, none⟩ ⟨some (cstr "/w"), ExitPath.waitSuccess 5⟩
        (some (cstr "ls"))
      = ExecOutcome.returned
          (execute_via_ssh_result ⟨some (cstr "a"), cstr "u@h:1", none, none⟩
            ⟨some (cstr "/w"), ExitPath.waitSuccess 5⟩).1
          (execute_via_ssh_result ⟨some (cstr "a"), cstr "u@h:1", none, none⟩
            ⟨some (cstr "/w"), ExitPath.waitSuccess 5⟩).2 :=
  hook_exit_semantics ⟨some (cstr "a"), cstr "u@h:1", none, none⟩
    ⟨some (cstr "/w"), ExitPath.waitSuccess 5⟩ (some (cstr "ls")) (some (cstr "ls"))
    [cstr "ls"] [cstr "ls"] (cstr "ls") (cstr "/w") (cstr "/w") (cstr "/w")
    (by decide) (by decide) (by decide)

end Intercept

namespace Intercept

/-! ## Host and port parsing lemmas -/

/-- On a colon-free string the split yields the whole string and no port. -/
theorem splitLastColon_no_colon (s : List Char) (h : ':' ∉ s) :
    splitLastColon s = (s, none) := by
  induction s with
  | nil => rfl
  | cons c t ih =>
    have h1 : ':' ∉ t := fun hm => h (List.mem_cons_of_mem c hm)
    have h2 : ¬ c = ':' := fun he => h (he ▸ List.mem_cons_self c t)
    simp [splitLastColon, ih h1, h2]

/-- Splitting at the last colon: with a colon-free tail `post`, the
string `pre ++ colon ++ post` splits into `pre` and `post`. -/
theorem splitLastColon_split (post : List Char) (hpost : ':' ∉ post) :
    ∀ pre : List Char, splitLastColon (pre ++ ':' :: post) = (pre, some post) := by
  intro pre
  induction pre with
  | nil => simp [splitLastColon, splitLastColon_no_colon post hpost]
  | cons c pr ih => simp [splitLastColon, ih]

/-! ## C5 -/

/-- C5: the dispatcher splits `REMOTE_VM_HOST` at its last colon into
the user-host part and a candidate port; `REMOTE_VM_PORT` takes
precedence when set; and when neither source yields a port the
dispatcher fails and the intercepted hook returns -1 with errno
`EINVAL`. -/
theorem port_resolution (env env2 : Env) (w : World)
    (pre post prt aid cw : List Char) (f : Option (List Char)) (argv : List (List Char))
    (h1 : env.remoteHost = pre ++ ':' :: post)
    (h2 : ':' ∉ post)
    (h3 : env.remotePort = some prt)
    (h4 : env2.remotePort = none)
    (h5 : ':' ∉ env2.remoteHost)
    (h6 : env2.appId = some aid)
    (h7 : is_ssh_command env2 f (some argv) = false)
    (h8 : w.cwd = some cw) :
    splitLastColon env.remoteHost = (pre, some post)
    ∧ resolvedPort env = some prt
    ∧ resolvedPort env2 = none
    ∧ execute_via_ssh_result env2 w = (-1, some Errno.EINVAL)
    ∧ execve env2 w f argv = ExecOutcome.returned (-1) (some Errno.EINVAL) := by
  have ha : splitLastColon env.remoteHost = (pre, some post) := by
    rw [h1]
    exact splitLastColon_split post h2 pre
  have hb : resolvedPort env2 = none := by
    simp [resolvedPort, h4, splitLastColon_no_colon env2.remoteHost h5]
  have hc : execute_via_ssh_result env2 w = (-1, some Errno.EINVAL) := by
    simp [execute_via_ssh_result, hb]
  have hi : should_intercept_and_get_cwd env2 w.cwd f (some argv) = some cw := by
    simp [should_intercept_and_get_cwd, h6, h7, h8]
  refine ⟨ha, by simp [resolvedPort, h3], hb, hc, ?_⟩
  simp [execve, hi, hc]

/-- Witness for C5 at concrete inputs. -/
theorem port_resolution_witness :
    splitLastColon (⟨some (cstr "a"), cstr "u@h:2222", some (cstr "9"), none⟩ : Env).remoteHost
      = (cstr "u@h", some (cstr "2222"))
    ∧ resolvedPort ⟨some (cstr "a"), cstr "u@h:2222", some (cstr "9"), none⟩ = some (cstr "9")
    ∧ resolvedPort ⟨some (cstr "a"), cstr "u@h", none, none⟩ = none
    ∧ execute_via_ssh_result ⟨some (cstr "a"), cstr "u@h", none, none⟩
        ⟨some (cstr "/w"), ExitPath.waitSuccess 0⟩ = (-1, some Errno.EINVAL)
    ∧ execve ⟨some (cstr "a"), cstr "u@h", none, none⟩
        ⟨some (cstr "/w"), ExitPath.waitSuccess 0⟩ (some (cstr "ls")) [cstr "ls"]
      = ExecOutcome.returned (-1) (some Errno.EINVAL) :=
  port_resolution ⟨some (cstr "a"), cstr "u@h:2222", some (cstr "9"), none⟩
    ⟨some (cstr "a"), cstr "u@h", none, none⟩ ⟨some (cstr "/w"), ExitPath.waitSuccess 0⟩
    (cstr "u@h") (cstr "2222") (cstr "9") (cstr "a") (cstr "/w") (some (cstr "ls")) [cstr "ls"]
    rfl (by decide) rfl rfl (by decide) rfl (by decide) rfl

/-! ## C6 -/

/-- C6: the SSH child receives the remote command `cd '<dir>' && <cmd>`
(the command unchanged when no directory is given); with a password the
executed binary is `/usr/bin/sshpass` with argument vector `[sshpass,
-p, password, ssh, -o, StrictHostKeyChecking=no, -p, port, userhost,
command]`, and without a password it is `/usr/bin/ssh` with the same
vector minus the first three tokens. -/
theorem ssh_child_vector (env env2 : Env) (cmd d port port2 pw uh uh2 : List Char)
    (pc pc2 : Option (List Char))
    (h1 : env.password = some pw)
    (h2 : resolvedPort env = some port)
    (h3 : splitLastColon env.remoteHost = (uh, pc))
    (h4 : env2.password = none)
    (h5 : resolvedPort env2 = some port2)
    (h6 : splitLastColon env2.remoteHost = (uh2, pc2)) :
    execute_via_ssh_spawn env cmd (some d)
      = some (cstr "/usr/bin/sshpass",
          [cstr "sshpass", cstr "-p", pw, cstr "ssh", cstr "-o",
           cstr "StrictHostKeyChecking=no", cstr "-p", port, uh,
           cstr "cd " ++ quoteC :: (d ++ quoteC :: (cstr " && " ++ cmd))])
    ∧ execute_via_ssh_spawn env2 cmd (some d)
      = some (cstr "/usr/bin/ssh",
          [cstr "ssh", cstr "-o", cstr "StrictHostKeyChecking=no",
           cstr "-p", port2, uh2,
           cstr "cd " ++ quoteC :: (d ++ quoteC :: (cstr " && " ++ cmd))])
    ∧ full_command cmd none = cmd := by
  refine ⟨?_, ?_, rfl⟩
  · simp [execute_via_ssh_spawn, h1, h2, h3, full_command]
  · simp [execute_via_ssh_spawn, h4, h5, h6, full_command]

/-- Witness for C6 at concrete inputs. -/
theorem ssh_child_vector_witness :
    execute_via_ssh_spawn ⟨some (cstr "a"), cstr "u@h:2222", none, some (cstr "pw")⟩
        (cstr "ls") (some (cstr "/w"))
      = some (cstr "/usr/bin/sshpass",
          [cstr "sshpass", cstr "-p", cstr "pw", cstr "ssh", cstr "-o",
           cstr "StrictHostKeyChecking=no", cstr "-p", cstr "2222", cstr "u@h",
           cstr "cd " ++ quoteC :: (cstr "/w" ++ quoteC :: (cstr " && " ++ cstr "ls"))])
    ∧ execute_via_ssh_spawn ⟨some (cstr "a"), cstr "u@h:2222", none, none⟩
        (cstr "ls") (some (cstr "/w"))
      = some (cstr "/usr/bin/ssh",
          [cstr "ssh", cstr "-o", cstr "StrictHostKeyChecking=no",
           cstr "-p", cstr "2222", cstr "u@h",
           cstr "cd " ++ quoteC :: (cstr "/w" ++ quoteC :: (cstr " && " ++ cstr "ls"))])
    ∧ full_command (cstr "ls") none = cstr "ls" :=
  ssh_child_vector ⟨some (cstr "a"), cstr "u@h:2222", none, some (cstr "pw")⟩
    ⟨some (cstr "a"), cstr "u@h:2222", none, none⟩ (cstr "ls") (cstr "/w")
    (cstr "2222") (cstr "2222") (cstr "pw") (cstr "u@h") (cstr "u@h")
    (some (cstr "2222")) (some (cstr "2222"))
    rfl (by decide) (by decide) rfl (by decide) (by decide)

end Intercept

namespace Intercept

/-! ## Substring correctness lemmas -/

/-- Correctness of the prefix comparison. -/
theorem leadsWith_iff (n : List Char) : ∀ h : List Char,
    leadsWith n h = true ↔ ∃ t, h = n ++ t := by
  induction n with
  | nil =>
    intro h
    simp [leadsWith]
  | cons c cs2 ih =>
    intro h
    cases h with
    | nil => simp [leadsWith]
    | cons d ds =>
      simp only [leadsWith, Bool.and_eq_true, beq_iff_eq, ih ds, List.cons_append,
        List.cons.injEq]
      constructor
      · rintro ⟨hcd, t, ht⟩
        exact ⟨t, hcd.symm, ht⟩
      · rintro ⟨t, hdc, ht⟩
        exact ⟨hdc.symm, t, ht⟩

/-- Correctness of the substring search: `hasSub h n` holds exactly
when `n` occurs contiguously in `h`. -/
theorem hasSub_iff (n : List Char) : ∀ h : List Char,
    hasSub h n = true ↔ occursIn n h := by
  intro h
  induction h with
  | nil =>
    constructor
    · intro he
      have hn : n = [] := by
        cases n with
        | nil => rfl
        | cons a b => simp [hasSub, List.isEmpty] at he
      exact ⟨[], [], by simp [hn]⟩
    · rintro ⟨p, s, hps⟩
      have h1 := List.append_eq_nil.mp hps.symm
      have h2 := List.append_eq_nil.mp h1.1
      rw [h2.2]
      rfl
  | cons c t ih =>
    simp only [hasSub, Bool.or_eq_true]
    constructor
    · intro hl
      rcases hl with hl | hl
      · obtain ⟨s, hs⟩ := (leadsWith_iff n (c :: t)).1 hl
        exact ⟨[], s, by simp [hs]⟩
      · obtain ⟨p, s, hps⟩ := ih.1 hl
        exact ⟨c :: p, s, by simp [hps]⟩
    · rintro ⟨p, s, hps⟩
      cases p with
      | nil =>
        left
        refine (leadsWith_iff n (c :: t)).2 ⟨s, ?_⟩
        simpa using hps
      | cons d p2 =>
        right
        simp only [List.cons_append, List.cons.injEq] at hps
        exact ih.2 ⟨p2, s, hps.2⟩

/-! ## C7 -/

/-- C7 counterexample: the hint `sh` has basename `sh` but is not
classified as a shell, and the hint `/shared/ls` has basename `ls` but
is classified as a shell, refuting the claim that the classification
is exactly a basename test. -/
theorem shell_basename_mismatch :
    spec_is_shell (cstr "sh") = true
    ∧ is_shell (cstr "sh") = false
    ∧ spec_is_shell (cstr "/shared/ls") = false
    ∧ is_shell (cstr "/shared/ls") = true := by
  decide

/-- C7 amended: the policy classifies a hint as a shell exactly when
the hint contains one of the substrings `/sh`, `/bash`, `/zsh`,
`/dash` anywhere, not when its basename is one of the four shell
names. -/
theorem is_shell_characterization (f : List Char) :
    is_shell f = true ↔
      occursIn (cstr "/sh") f ∨ occursIn (cstr "/bash") f
        ∨ occursIn (cstr "/zsh") f ∨ occursIn (cstr "/dash") f := by
  simp only [is_shell, Bool.or_eq_true, hasSub_iff]
  tauto

/-! ## C8 -/

/-- When every `mkdir` in the walk succeeds or reports `EEXIST`, the
run succeeds and attempts exactly the given targets, each with mode
`0o755`. -/
theorem runMkdirs_ok (mk : List Char → Nat → Option Errno) :
    ∀ (ps : List (List Char)) (e : Option Errno),
      (∀ q ∈ ps, mk q 0o755 = none ∨ mk q 0o755 = some Errno.EEXIST) →
      (runMkdirs mk e ps).1 = true
      ∧ (runMkdirs mk e ps).2.2 = ps.map (fun q => (q, 0o755)) := by
  intro ps
  induction ps with
  | nil => intro e _; exact ⟨rfl, rfl⟩
  | cons p ps ih =>
    intro e h
    have hp := h p (List.mem_cons_self p ps)
    have hrest : ∀ q ∈ ps, mk q 0o755 = none ∨ mk q 0o755 = some Errno.EEXIST :=
      fun q hq => h q (List.mem_cons_of_mem p hq)
    rcases hp with hp | hp
    · have hr := ih e hrest
      simp [runMkdirs, hp, hr.1, hr.2]
    · have hr := ih (some Errno.EEXIST) hrest
      simp [runMkdirs, hp, hr.1, hr.2]

/-- C8 counterexample: with the first raw `chdir` failing with
`ENOENT` and every `mkdir` failing with `EACCES`, the hook returns the
original -1 but with errno `EACCES` — the errno of the failed `mkdir`,
not the original `chdir` errno, refuting the errno-preservation partic
of the claim. -/
theorem chdir_errno_clobbered :
    chdir none ⟨some Errno.ENOENT, none, fun _ _ => some Errno.EACCES⟩ (some (cstr "/a/b"))
      = (-1, some Errno.EACCES)
    ∧ some Errno.EACCES ≠ some Errno.ENOENT := by
  constructor
  · decide
  · decide

/-- C8 amended: a successful first raw `chdir` returns 0; on failure
the tree is created with `mkdir` at each intermediate slash with mode
`0o755` treating `EEXIST` as success, and if creation succeeds the
raw `chdir` is retried once and that result returned; if creation
fails the hook returns the original -1, but the errno at return is the
errno left by the failed `mkdir` walk, not necessarily the original
`chdir` errno. -/
theorem chdir_semantics_amended (e0 : Option Errno) (w1 w2 w3 : ChdirWorld)
    (p1 p2 p3 : List Char) (e1 e3 : Errno)
    (h1 : w1.chdir1 = none)
    (h2 : w2.chdir1 = some e1)
    (h2b : ∀ q ∈ slashPrefixes (stripSlash p2) ++ [stripSlash p2],
        w2.mkd q 0o755 = none ∨ w2.mkd q 0o755 = some Errno.EEXIST)
    (h3 : w3.chdir1 = some e3)
    (h3b : (mkdir_recursive w3.mkd (some e3) p3).1 = false) :
    chdir e0 w1 (some p1) = (0, e0)
    ∧ chdir e0 w2 (some p2)
        = (match w2.chdir2 with
           | none => (0, (mkdir_recursive w2.mkd (some e1) p2).2.1)
           | some e4 => (-1, some e4))
    ∧ (mkdir_recursive w2.mkd (some e1) p2).2.2
        = (slashPrefixes (stripSlash p2) ++ [stripSlash p2]).map (fun q => (q, 0o755))
    ∧ chdir e0 w3 (some p3) = (-1, (mkdir_recursive w3.mkd (some e3) p3).2.1) := by
  have hok := runMkdirs_ok w2.mkd (slashPrefixes (stripSlash p2) ++ [stripSlash p2])
    (some e1) h2b
  refine ⟨?_, ?_, ?_, ?_⟩
  · simp [chdir, h1]
  · have hm : (mkdir_recursive w2.mkd (some e1) p2).1 = true := hok.1
    simp [chdir, h2, hm]
  · exact hok.2
  · simp [chdir, h3, h3b]

/-- Witness for the amended C8 at concrete inputs. -/
theorem chdir_semantics_amended_witness :
    chdir none ⟨none, none, fun _ _ => none⟩ (some (cstr "/x")) = (0, none)
    ∧ chdir none ⟨some Errno.ENOENT, none, fun _ _ => some Errno.EEXIST⟩ (some (cstr "/a/b"))
        = (match (⟨some Errno.ENOENT, none, fun _ _ => some Errno.EEXIST⟩ : ChdirWorld).chdir2 with
           | none => (0, (mkdir_recursive
               (⟨some Errno.ENOENT, none, fun _ _ => some Errno.EEXIST⟩ : ChdirWorld).mkd
               (some Errno.ENOENT) (cstr "/a/b")).2.1)
           | some e4 => (-1, some e4))
    ∧ (mkdir_recursive (⟨some Errno.ENOENT, none, fun _ _ => some Errno.EEXIST⟩ : ChdirWorld).mkd
          (some Errno.ENOENT) (cstr "/a/b")).2.2
        = (slashPrefixes (stripSlash (cstr "/a/b")) ++ [stripSlash (cstr "/a/b")]).map
            (fun q => (q, 0o755))
    ∧ chdir none ⟨some Errno.ENOENT, none, fun _ _ => some Errno.EACCES⟩ (some (cstr "/c/d"))
        = (-1, (mkdir_recursive
            (⟨some Errno.ENOENT, none, fun _ _ => some Errno.EACCES⟩ : ChdirWorld).mkd
            (some Errno.ENOENT) (cstr "/c/d")).2.1) :=
  chdir_semantics_amended none ⟨none, none, fun _ _ => none⟩
    ⟨some Errno.ENOENT, none, fun _ _ => some Errno.EEXIST⟩
    ⟨some Errno.ENOENT, none, fun _ _ => some Errno.EACCES⟩
    (cstr "/x") (cstr "/a/b") (cstr "/c/d") Errno.ENOENT Errno.ENOENT
    rfl rfl (by decide) rfl (by decide)

/-! ## C9 -/

/-- C9 counterexample: on the wait-failure exit path the dispatcher
allocates the `ssh_args` strings (identifier 2 is the first of them)
but does not free them, refuting the claim that every per-call
allocation is freed on every exit path. -/
theorem wait_failure_leak :
    2 ∈ allocIds (execute_via_ssh_events ⟨some (cstr "a"), cstr "u@h:22", none, none⟩
        ExitPath.waitFailure)
    ∧ 2 ∉ freedIds (execute_via_ssh_events ⟨some (cstr "a"), cstr "u@h:22", none, none⟩
        ExitPath.waitFailure) := by
  decide

/-- C9 amended: on the successful-wait and fork-failure exit paths
every per-call allocation of the dispatcher is freed; on the
wait-failure path only the synthesised command and the host copy are
freed, while the `ssh_args` strings remain allocated. -/
theorem dispatcher_free_amended (env : Env) (s : Nat) (q : List Char)
    (hq : resolvedPort env = some q) :
    balanced (execute_via_ssh_events env (ExitPath.waitSuccess s))
    ∧ balanced (execute_via_ssh_events env ExitPath.forkFailure)
    ∧ freedIds (execute_via_ssh_events env ExitPath.waitFailure) = [0, 1]
    ∧ allocIds (execute_via_ssh_events env ExitPath.waitFailure)
        = [0, 1] ++ (List.range (sshArgCount env)).map (fun i => 2 + i) := by
  rcases hpw : env.password with _ | pw <;>
    refine ⟨?_, ?_, ?_, ?_⟩ <;>
      simp [execute_via_ssh_events, hq, sshArgCount, hpw, balanced, allocIds, freedIds] <;>
        decide

/-- Witness for the amended C9 at concrete inputs. -/
theorem dispatcher_free_amended_witness :
    balanced (execute_via_ssh_events ⟨some (cstr "a"), cstr "u@h:22", none, none⟩
        (ExitPath.waitSuccess 0))
    ∧ balanced (execute_via_ssh_events ⟨some (cstr "a"), cstr "u@h:22", none, none⟩
        ExitPath.forkFailure)
    ∧ freedIds (execute_via_ssh_events ⟨some (cstr "a"), cstr "u@h:22", none, none⟩
        ExitPath.waitFailure) = [0, 1]
    ∧ allocIds (execute_via_ssh_events ⟨some (cstr "a"), cstr "u@h:22", none, none⟩
        ExitPath.waitFailure)
        = [0, 1] ++ (List.range (sshArgCount ⟨some (cstr "a"), cstr "u@h:22", none, none⟩)).map
            (fun i => 2 + i) :=
  dispatcher_free_amended ⟨some (cstr "a"), cstr "u@h:22", none, none⟩ 0 (cstr "22")
    (by decide)

/-! ## C10 -/

/-- C10: at the argument consisting of one single quote, the quoter
writes 8 bytes (7 characters plus the terminator) into the 7-byte
per-argument buffer it allocates (4 times the length plus 3), and
writes 8 bytes into the 3-byte output buffer (the sum of length plus
one over the argv, plus one); the claimed bounds fail. -/
theorem quoter_allocation_overflow :
    (quoteArg [quoteC]).length = 7
    ∧ ¬ ((quoteArg [quoteC]).length ≤ 4 * ([quoteC] : List Char).length + 2)
    ∧ (quoteArg [quoteC]).length + 1 > ([quoteC] : List Char).length * 4 + 3
    ∧ (build_command_from_argv [[quoteC]]).length = 7
    ∧ ¬ ((build_command_from_argv [[quoteC]]).length ≤ ([quoteC] : List Char).length + 1)
    ∧ (build_command_from_argv [[quoteC]]).length + 1 > (([quoteC] : List Char).length + 1) + 1 := by
  decide

end Intercept
